import Mathlib

/-!
Verification of the mirascope message-normalization layer: the Common Message
Model, the Anthropic and Cohere message-param converters, and the OpenAI /
AzureAI call-response adapters, embedded shallowly from the Python sources.
-/

/-- Model of the Python exceptions the converters and adapters raise. -/
inductive PyError
  | valueError (msg : String)
  | attributeError (msg : String)
  | indexError (msg : String)
  deriving DecidableEq, Repr

deriving instance DecidableEq for Except

/-- Modelled from the spec: the Common Message Model content parts (spec section 3);
the `TextPart`, `ImagePart`, `AudioPart` and `ToolCallPart` classes of
`mirascope.core.base` are imported by the converters but are not among the
provided source files. Image and audio payloads are raw decoded bytes (each a
natural number below 256); tool-call arguments are an opaque string-keyed
mapping; the correlation identifier of a tool call is optional (the Cohere
converter constructs `ToolCallPart` without one). -/
inductive ContentPart
  | textPart (text : String)
  | imagePart (media_type : String) (image : List Nat) (detail : Option String)
  | audioPart (media_type : String) (audio : List Nat)
  | toolCallPart (name : String) (args : List (String × String)) (id : Option String)
  deriving DecidableEq, Repr

/-- Modelled from the spec: a common message's content is either a plain string
or an ordered sequence of typed parts (spec section 3). -/
inductive MessageContent
  | str (s : String)
  | parts (ps : List ContentPart)
  deriving DecidableEq, Repr

/-- Modelled from the spec: `BaseMessageParam`, the canonical message every
provider converges to — a role together with content. -/
structure BaseMessageParam where
  role : String
  content : MessageContent
  deriving DecidableEq, Repr

/-- Whether a content part is a tool-call part. -/
def ContentPart.isToolCall : ContentPart → Bool
  | .toolCallPart _ _ _ => true
  | _ => false

/-- Whether the content contains a tool-call part (used to state the
role-derivation invariant of spec section 3). -/
def MessageContent.hasToolCallPart : MessageContent → Bool
  | .str _ => false
  | .parts ps => ps.any ContentPart.isToolCall

/-- The base64 alphabet, in index order, as used by Python `base64`. -/
def b64chars : List Char :=
  "ABCDEFGHIJKLMNOPQRSTUVWXYZabcdefghijklmnopqrstuvwxyz0123456789+/".toList

/-- The character encoding a 6-bit group (only applied to values below 64). -/
def encChar (n : Nat) : Char := b64chars.getD n '='

/-- The 6-bit value of a base64 alphabet character. -/
def decCharVal (c : Char) : Nat := b64chars.indexOf c

/-- Model of Python `base64.b64encode` on a byte sequence, producing the base64
text (with `=` padding). -/
def b64encode : List Nat → List Char
  | [] => []
  | [a] => [encChar (a / 4), encChar (a % 4 * 16), '=', '=']
  | [a, b] => [encChar (a / 4), encChar (a % 4 * 16 + b / 16), encChar (b % 16 * 4), '=']
  | a :: b :: c :: rest =>
      encChar (a / 4) :: encChar (a % 4 * 16 + b / 16) :: encChar (b % 16 * 4 + c / 64)
        :: encChar (c % 64) :: b64encode rest

/-- Model of Python `base64.b64decode` on base64 text: decodes four characters
at a time, honouring `=` padding. (The converters only apply it to well-formed
base64 text; error behaviour on malformed padding is outside the modelled
paths.) -/
def b64decode : List Char → List Nat
  | c1 :: c2 :: c3 :: c4 :: rest =>
      let n1 := decCharVal c1
      let n2 := decCharVal c2
      if c3 = '=' then [n1 * 4 + n2 / 16]
      else
        let n3 := decCharVal c3
        if c4 = '=' then [n1 * 4 + n2 / 16, n2 % 16 * 16 + n3 / 4]
        else (n1 * 4 + n2 / 16) :: (n2 % 16 * 16 + n3 / 4)
          :: (n3 % 4 * 64 + decCharVal c4) :: b64decode rest
  | _ => []

namespace AnthropicMessageParamConverter

/-- The shapes the `data` field of an Anthropic base64 image source takes in
`from_provider`: a base64 string (`isinstance(image_data, str)`), a path
reference (`isinstance(image_data, PathLike)`, modelled by the bytes read from
the referenced file), a file-like object (the fallback branch calls
`image_data.read()`, modelled by the bytes that read returns), or a raw Python
`bytes` object (also hits the fallback branch, where `.read()` does not exist).
-/
inductive AnthropicImageData
  | str (s : List Char)
  | pathLike (fileContents : List Nat)
  | fileLike (contents : List Nat)
  | rawBytes (bs : List Nat)
  deriving DecidableEq, Repr

/-- Python truthiness of an image-data value (`if not image_data`): an empty
string and an empty bytes object are falsy; path and file-like objects are
truthy. -/
def AnthropicImageData.truthy : AnthropicImageData → Bool
  | .str s => !s.isEmpty
  | .rawBytes bs => !bs.isEmpty
  | .pathLike _ => true
  | .fileLike _ => true

/-- The `source` dict of an Anthropic image block: a `type` tag plus optional
`media_type` and `data` entries (`source.get(...)` yields `None` when a key is
missing, modelled by `Option`). -/
structure AnthropicImageSource where
  type : String
  media_type : Option String
  data : Option AnthropicImageData
  deriving DecidableEq, Repr

/-- An Anthropic content block that is a dict, discriminated by its `"type"`
entry. For a `text` block, `none` models a `"text"` entry that is missing or
not a string (both raise the same error in the source). `other` covers every
declared type outside text / image / tool_use. -/
inductive AnthropicBlockDict
  | text (text : Option String)
  | image (source : Option AnthropicImageSource)
  | tool_use (id : String) (name : String) (input : List (String × String))
  | other (type : String)
  deriving DecidableEq, Repr

/-- Whether the dict block's declared kind is one the converter recognizes. -/
def AnthropicBlockDict.recognizedKind : AnthropicBlockDict → Bool
  | .other _ => false
  | _ => true

/-- A content block of an Anthropic `MessageParam`: either a dict or some other
object (`isinstance(block, dict)` fails, e.g. an SDK block instance); a
non-dict object may still carry a declared type attribute, which the converter
never inspects. -/
inductive AnthropicBlock
  | dict (d : AnthropicBlockDict)
  | nonDict (type : String)
  deriving DecidableEq, Repr

/-- The content of an Anthropic `MessageParam`: a plain string or a list of
blocks. -/
inductive AnthropicContent
  | str (s : String)
  | blocks (bs : List AnthropicBlock)
  deriving DecidableEq, Repr

/-- Anthropic's `MessageParam` (a role plus content). -/
structure MessageParam where
  role : String
  content : AnthropicContent
  deriving DecidableEq, Repr

/-- The fixed media-type allow-list of `from_provider`. -/
def allowedMediaTypes : List String :=
  ["image/jpeg", "image/png", "image/gif", "image/webp"]

/-- The error message raised for a media type outside the allow-list. -/
def unsupportedMediaTypeMsg (media_type : String) : String :=
  "Unsupported image media type: " ++ media_type ++
    ". BaseMessageParam currently only supports JPEG, PNG, GIF, and WebP images."

/-- The error message raised for a dict block with an unrecognized kind. -/
def unsupportedBlockTypeMsg (type : String) : String :=
  "Unsupported block type \x27" ++ type ++
    "\x27. BaseMessageParam currently only supports text and image parts."

/-- Normalization of the image payload to raw bytes, following the three
branches of `from_provider`: base64 strings are decoded, a path is opened and
read, and anything else has `.read()` called on it — which for a raw `bytes`
object raises `AttributeError`. -/
def decodeImageData : AnthropicImageData → Except PyError (List Nat)
  | .str s => .ok (b64decode s)
  | .pathLike fileContents => .ok fileContents
  | .fileLike contents => .ok contents
  | .rawBytes _ =>
      .error (.attributeError "\x27bytes\x27 object has no attribute \x27read\x27")

/-- One iteration of the block loop of `from_provider`: `none` means the block
was skipped (not a dict); otherwise the converted part is returned together
with whether it was a tool_use block (which sets `has_tool_call`). -/
def convertBlock : AnthropicBlock → Except PyError (Option (ContentPart × Bool))
  | .nonDict _ => .ok none
  | .dict (.text t) =>
      match t with
      | some s => .ok (some (.textPart s, false))
      | none => .error (.valueError "TextBlockParam must have a string \x27text\x27 field.")
  | .dict (.image src) =>
      match src with
      | none =>
          .error (.valueError "ImageBlockParam must have a \x27source\x27 with type=\x27base64\x27.")
      | some source =>
          if source.type ≠ "base64" then
            .error (.valueError "ImageBlockParam must have a \x27source\x27 with type=\x27base64\x27.")
          else
            match source.data, source.media_type with
            | some image_data, some media_type =>
                if image_data.truthy && media_type ≠ "" then
                  if allowedMediaTypes.contains media_type then
                    match decodeImageData image_data with
                    | .ok decoded_image_data =>
                        .ok (some (.imagePart media_type decoded_image_data none, false))
                    | .error e => .error e
                  else .error (.valueError (unsupportedMediaTypeMsg media_type))
                else
                  .error (.valueError "ImageBlockParam source must have \x27data\x27 and \x27media_type\x27.")
            | _, _ =>
                .error (.valueError "ImageBlockParam source must have \x27data\x27 and \x27media_type\x27.")
  | .dict (.tool_use id name input) => .ok (some (.toolCallPart name input (some id), true))
  | .dict (.other t) => .error (.valueError (unsupportedBlockTypeMsg t))

/-- The block loop of `from_provider`: the converted parts in order, together
with the final `has_tool_call` flag; the first failing block's error
propagates. -/
def convertBlocks : List AnthropicBlock → Except PyError (List ContentPart × Bool)
  | [] => .ok ([], false)
  | b :: rest =>
      match convertBlock b with
      | .error e => .error e
      | .ok none => convertBlocks rest
      | .ok (some (p, isTool)) =>
          match convertBlocks rest with
          | .error e => .error e
          | .ok (ps, flag) => .ok (p :: ps, isTool || flag)

/-- One iteration of the message loop of `from_provider`: string content
yields an assistant message directly; block content is converted block by
block and the role derived from `has_tool_call`. -/
def convertMessage (message_param : MessageParam) : Except PyError BaseMessageParam :=
  match message_param.content with
  | .str s => .ok ⟨"assistant", .str s⟩
  | .blocks bs =>
      match convertBlocks bs with
      | .error e => .error e
      | .ok (ps, has_tool_call) =>
          .ok ⟨if has_tool_call then "tool" else "assistant", .parts ps⟩

/-- `AnthropicMessageParamConverter.from_provider`: converts Anthropic
`MessageParam` values back to `BaseMessageParam`, raising on the first
unconvertible block. -/
def from_provider : List MessageParam → Except PyError (List BaseMessageParam)
  | [] => .ok []
  | message_param :: rest =>
      match convertMessage message_param with
      | .error e => .error e
      | .ok m =>
          match from_provider rest with
          | .error e => .error e
          | .ok ms => .ok (m :: ms)

/-- Modelled from the spec: `mirascope.core.anthropic._utils.convert_message_params`
(called by `to_provider`) is not among the provided source files. Following
spec sections 4.2 and 8: conversion is deterministic, roles pass through
unchanged, string content stays a string, a text part becomes a text block, an
image part becomes a base64 source carrying the base64-encoded payload and its
media type (raising for a media type Anthropic does not support; the detail
hint has no Anthropic encoding and is dropped), a tool-call part becomes a
tool_use block carrying identifier, name and arguments (an absent identifier
is encoded as the empty string), and a part kind the provider cannot represent
(audio) raises a typed conversion error. -/
def convertOutPart : ContentPart → Except PyError AnthropicBlock
  | .textPart text => .ok (.dict (.text (some text)))
  | .imagePart media_type image _detail =>
      if allowedMediaTypes.contains media_type then
        .ok (.dict (.image (some ⟨"base64", some media_type, some (.str (b64encode image))⟩)))
      else .error (.valueError (unsupportedMediaTypeMsg media_type))
  | .audioPart _ _ =>
      .error (.valueError "Anthropic does not support audio parts.")
  | .toolCallPart name args id => .ok (.dict (.tool_use (id.getD "") name args))

/-- Modelled from the spec: the part loop of `convert_message_params` (see
`convertOutPart`), stopping at the first part the provider cannot express. -/
def convertOutParts : List ContentPart → Except PyError (List AnthropicBlock)
  | [] => .ok []
  | p :: rest =>
      match convertOutPart p with
      | .error e => .error e
      | .ok block =>
          match convertOutParts rest with
          | .error e => .error e
          | .ok blocks => .ok (block :: blocks)

/-- Modelled from the spec: one message of `convert_message_params` (see
`convertOutPart`). -/
def convertOutMessage (m : BaseMessageParam) : Except PyError MessageParam :=
  match m.content with
  | .str s => .ok ⟨m.role, .str s⟩
  | .parts ps =>
      match convertOutParts ps with
      | .error e => .error e
      | .ok blocks => .ok ⟨m.role, .blocks blocks⟩

/-- Modelled from the spec: `convert_message_params`, the body of
`to_provider` (see `convertOutPart`). -/
def convert_message_params : List BaseMessageParam → Except PyError (List MessageParam)
  | [] => .ok []
  | m :: rest =>
      match convertOutMessage m with
      | .error e => .error e
      | .ok pm =>
          match convert_message_params rest with
          | .error e => .error e
          | .ok pms => .ok (pm :: pms)

/-- `AnthropicMessageParamConverter.to_provider` delegates to
`convert_message_params`. -/
def to_provider (message_params : List BaseMessageParam) :
    Except PyError (List MessageParam) :=
  convert_message_params message_params

end AnthropicMessageParamConverter

namespace CohereMessageParamConverter

/-- A Cohere tool call: a tool name and its parameter mapping. -/
structure ToolCall where
  name : String
  parameters : List (String × String)
  deriving DecidableEq, Repr

/-- Cohere's `ChatMessage`: a free-text `message` field plus an optional list
of tool calls (`None` and `[]` are both falsy under `if not
message_param.tool_calls`). -/
structure ChatMessage where
  message : String
  tool_calls : Option (List ToolCall)
  deriving DecidableEq, Repr

/-- What `CohereMessageParamConverter.from_provider` actually returns: either a
bare `BaseMessageParam` object (the early `return` in the no-tool-calls case)
or the accumulated list. -/
inductive FromProviderResult
  | single (m : BaseMessageParam)
  | list (ms : List BaseMessageParam)
  deriving DecidableEq, Repr

/-- The converted content of a Cohere message that has tool calls: a text part
for the free text when it is truthy, then one tool-call part per call (built
without a correlation identifier). -/
def convertedContent (message_param : ChatMessage) (tcs : List ToolCall) :
    List ContentPart :=
  (if message_param.message = "" then [] else [ContentPart.textPart message_param.message])
    ++ tcs.map fun tool_call =>
        ContentPart.toolCallPart tool_call.name tool_call.parameters none

/-- The loop of `CohereMessageParamConverter.from_provider`, carrying the
`converted` accumulator: the first message without tool calls triggers an
early return of a single assistant message whose content is the bare string. -/
def fromProviderLoop : List ChatMessage → List BaseMessageParam → FromProviderResult
  | [], converted => .list converted
  | message_param :: rest, converted =>
      match message_param.tool_calls with
      | none => .single ⟨"assistant", .str message_param.message⟩
      | some [] => .single ⟨"assistant", .str message_param.message⟩
      | some tcs =>
          fromProviderLoop rest
            (converted ++ [⟨"tool", .parts (convertedContent message_param tcs)⟩])

/-- `CohereMessageParamConverter.from_provider`. -/
def from_provider (message_params : List ChatMessage) : FromProviderResult :=
  fromProviderLoop message_params []

end CohereMessageParamConverter

namespace OpenAICallResponse

/-- The function payload of an OpenAI tool call: name and raw JSON argument
text. -/
structure ToolFunction where
  name : String
  arguments : String
  deriving DecidableEq, Repr

/-- An OpenAI `ChatCompletionMessageToolCall`. -/
structure ChatCompletionMessageToolCall where
  id : String
  function : ToolFunction
  deriving DecidableEq, Repr

/-- The first-choice message of an OpenAI `ChatCompletion`: optional textual
content, optional refusal text, optional tool calls. -/
structure ChatCompletionMessage where
  content : Option String
  refusal : Option String
  tool_calls : Option (List ChatCompletionMessageToolCall)
  deriving DecidableEq, Repr

/-- One choice of an OpenAI `ChatCompletion`. -/
structure Choice where
  message : ChatCompletionMessage
  deriving DecidableEq, Repr

/-- The wrapped OpenAI `ChatCompletion` response. -/
structure ChatCompletion where
  choices : List Choice
  deriving DecidableEq, Repr

/-- `OpenAICallResponse.content`: the content of the first choice, or `""`
when it is `None`; indexing `choices[0]` on an empty list raises
`IndexError`. -/
def content (response : ChatCompletion) : Except PyError String :=
  match response.choices with
  | [] => .error (.indexError "list index out of range")
  | choice :: _ => .ok (choice.message.content.getD "")

/-- The walrus test `refusal := self.response.choices[0].message.refusal` of
the `tools` property: the refusal only counts when present and truthy
(non-empty). -/
def truthyRefusal (message : ChatCompletionMessage) : Option String :=
  match message.refusal with
  | some r => if r = "" then none else some r
  | none => none

/-- The inner matching loop of `tools`: each tool call is matched against the
registered tool types by name, keeping the first match (`break`) and dropping
calls no registered type matches. A tool type is modelled by its canonical
name (`_name()`), and `from_tool_call` by pairing that name with the raw
call. -/
def extractTool (tool_types : List String) (tool_call : ChatCompletionMessageToolCall) :
    Option (String × ChatCompletionMessageToolCall) :=
  (tool_types.find? fun tool_type => tool_type == tool_call.function.name).map
    fun tool_type => (tool_type, tool_call)

/-- `OpenAICallResponse.tools`: raises `ValueError` with the refusal text when
the first-choice message carries a truthy refusal; returns `None` when no tool
types are registered or no tool calls are present; otherwise the extracted
tools. -/
def tools (response : ChatCompletion) (tool_types : List String) :
    Except PyError (Option (List (String × ChatCompletionMessageToolCall))) :=
  match response.choices with
  | [] => .error (.indexError "list index out of range")
  | choice :: _ =>
      match truthyRefusal choice.message with
      | some refusal => .error (.valueError refusal)
      | none =>
          let tool_calls := (choice.message.tool_calls).getD []
          if tool_types.isEmpty || tool_calls.isEmpty then .ok none
          else .ok (some (tool_calls.filterMap (extractTool tool_types)))

/-- `OpenAICallResponse.tool`: the first extracted tool when `tools` is truthy
(non-`None` and non-empty), else `None`; errors from `tools` propagate. -/
def tool (response : ChatCompletion) (tool_types : List String) :
    Except PyError (Option (String × ChatCompletionMessageToolCall)) :=
  match tools response tool_types with
  | .error e => .error e
  | .ok t =>
      .ok (match t with
        | some (x :: _) => some x
        | _ => none)

/-- A part dict of the assistant message-param view, discriminated by its
`"type"` entry (`part_dict.get("type")`, `none` when missing); `other` covers
every declared type outside text / image_url / input_audio. -/
inductive PartDict
  | text (text : String)
  | image_url (url : String) (detail : Option String)
  | input_audio (data : List Char) (format : String)
  | other (type : Option String)
  deriving DecidableEq, Repr

/-- Whether the part dict's declared kind is one the adapter recognizes. -/
def PartDict.recognizedKind : PartDict → Bool
  | .other _ => false
  | _ => true

/-- The content of the assistant message-param view: a string, `None`, or a
list of part dicts. -/
inductive MessageParamContent
  | str (s : String)
  | null
  | parts (ps : List PartDict)
  deriving DecidableEq, Repr

/-- The assistant message-param view (`ChatCompletionAssistantMessageParam`)
that `common_message_param` converts. -/
structure ChatCompletionAssistantMessageParam where
  role : String
  content : MessageParamContent
  deriving DecidableEq, Repr

/-- Python `url.split(",", 1)` unpacked into two names: splits at the first
occurrence only, and is `none` (an unpacking `ValueError`) when the separator
does not occur. -/
def splitFirst (sep : Char) : List Char → Option (List Char × List Char)
  | [] => none
  | c :: rest =>
      if c = sep then some ([], rest)
      else
        match splitFirst sep rest with
        | none => none
        | some (a, b) => some (c :: a, b)

/-- The rendering of `part_dict.get("type")` inside the f-string of the
unsupported-part error (`None` when the key is missing). -/
def typeText : Option String → String
  | some t => t
  | none => "None"

/-- One part conversion of `common_message_param`: text parts pass through; an
image_url part has its data URL split at the first comma, the media type cut
out of the header between `:` and `;`, and its payload base64-decoded, with
detail defaulting to `"auto"`; an input_audio part is base64-decoded with
media type `audio/<format>`; any other declared type raises. -/
def convertPart : PartDict → Except PyError ContentPart
  | .text text => .ok (.textPart text)
  | .image_url url detail =>
      match splitFirst ',' url.toList with
      | none => .error (.valueError "not enough values to unpack (expected 2, got 1)")
      | some (media_info, b64data) =>
          match (String.mk media_info).splitOn ":" |>.get? 1 with
          | none => .error (.indexError "list index out of range")
          | some seg =>
              let media_type := (seg.splitOn ";").headD ""
              .ok (.imagePart media_type (b64decode b64data) (some (detail.getD "auto")))
  | .input_audio data format =>
      .ok (.audioPart ("audio/" ++ format) (b64decode data))
  | .other t => .error (.valueError ("Unsupported part type: " ++ typeText t))

/-- The part loop of `common_message_param` over a content list. -/
def convertParts : List PartDict → Except PyError (List ContentPart)
  | [] => .ok []
  | p :: rest =>
      match convertPart p with
      | .error e => .error e
      | .ok part =>
          match convertParts rest with
          | .error e => .error e
          | .ok parts => .ok (part :: parts)

/-- `OpenAICallResponse.common_message_param` on the assistant message-param
view: string content passes through, `None` becomes `""`, and a part list is
converted part by part. -/
def common_message_param (mp : ChatCompletionAssistantMessageParam) :
    Except PyError BaseMessageParam :=
  match mp.content with
  | .str s => .ok ⟨mp.role, .str s⟩
  | .null => .ok ⟨mp.role, .str ""⟩
  | .parts ps =>
      match convertParts ps with
      | .error e => .error e
      | .ok parts => .ok ⟨mp.role, .parts parts⟩

end OpenAICallResponse

namespace AzureAICallResponseChunk

/-- The delta of a streamed choice: optional textual content. -/
structure ChoiceDelta where
  content : Option String
  deriving DecidableEq, Repr

/-- One streamed choice. -/
structure ChunkChoice where
  delta : ChoiceDelta
  deriving DecidableEq, Repr

/-- The wrapped AzureAI `ChatCompletionChunk`. -/
structure ChatCompletionChunk where
  choices : List ChunkChoice
  deriving DecidableEq, Repr

/-- `AzureAICallResponseChunk.content`: the delta content of the first choice
when the chunk has choices and that content is truthy, else `""`; never
raises. -/
def content (chunk : ChatCompletionChunk) : String :=
  match chunk.choices with
  | [] => ""
  | choice :: _ =>
      match choice.delta.content with
      | some s => if s = "" then "" else s
      | none => ""

end AzureAICallResponseChunk

/-- The Anthropic round trip: `to_provider` followed by `from_provider`,
errors propagating. -/
def anthropicRoundTrip (ms : List BaseMessageParam) :
    Except PyError (List BaseMessageParam) :=
  match AnthropicMessageParamConverter.to_provider ms with
  | .error e => .error e
  | .ok pms => AnthropicMessageParamConverter.from_provider pms

/-! Helper lemmas about the base64 model. -/

theorem decCharVal_encChar : ∀ n < 64, decCharVal (encChar n) = n := by decide

theorem encChar_ne_pad : ∀ n < 64, encChar n ≠ '=' := by decide

theorem b64encode_ne_nil {bs : List Nat} (h : bs ≠ []) : b64encode bs ≠ [] := by
  match bs with
  | [] => exact absurd rfl h
  | [a] => simp [b64encode]
  | [a, b] => simp [b64encode]
  | a :: b :: c :: rest => simp [b64encode]

theorem b64decode_b64encode :
    ∀ bs : List Nat, (∀ b ∈ bs, b < 256) → b64decode (b64encode bs) = bs := by
  intro bs
  induction bs using b64encode.induct with
  | case1 =>
    intro _
    rfl
  | case2 a =>
    intro h
    have ha : a < 256 := h a (by simp)
    have e1 := decCharVal_encChar (a / 4) (by omega)
    have e2 := decCharVal_encChar (a % 4 * 16) (by omega)
    simp [b64encode, b64decode, e1, e2]
    omega
  | case3 a b =>
    intro h
    have ha : a < 256 := h a (by simp)
    have hb : b < 256 := h b (by simp)
    have h3 : encChar (b % 16 * 4) ≠ '=' := encChar_ne_pad _ (by omega)
    have e1 := decCharVal_encChar (a / 4) (by omega)
    have e2 := decCharVal_encChar (a % 4 * 16 + b / 16) (by omega)
    have e3 := decCharVal_encChar (b % 16 * 4) (by omega)
    simp [b64encode, b64decode, h3, e1, e2, e3]
    omega
  | case4 a b c rest ih =>
    intro h
    have ha : a < 256 := h a (by simp)
    have hb : b < 256 := h b (by simp)
    have hc : c < 256 := h c (by simp)
    have hrest : b64decode (b64encode rest) = rest := ih fun x hx => h x (by simp [hx])
    have h3 : encChar (b % 16 * 4 + c / 64) ≠ '=' := encChar_ne_pad _ (by omega)
    have h4 : encChar (c % 64) ≠ '=' := encChar_ne_pad _ (by omega)
    have e1 := decCharVal_encChar (a / 4) (by omega)
    have e2 := decCharVal_encChar (a % 4 * 16 + b / 16) (by omega)
    have e3 := decCharVal_encChar (b % 16 * 4 + c / 64) (by omega)
    have e4 := decCharVal_encChar (c % 64) (by omega)
    simp [b64encode, b64decode, h3, h4, e1, e2, e3, e4, hrest]
    omega

/-- C6: for a Cohere provider message with `tool_calls` absent or empty and
message text `"hello"`, `from_provider` returns a single (unwrapped) message
with role `"assistant"` whose content is the plain string `"hello"`, not a
one-element part list. -/
theorem cohere_no_tool_calls_returns_single_string_message :
    CohereMessageParamConverter.from_provider [⟨"hello", none⟩]
        = .single ⟨"assistant", .str "hello"⟩ ∧
      CohereMessageParamConverter.from_provider [⟨"hello", some []⟩]
        = .single ⟨"assistant", .str "hello"⟩ :=
  ⟨rfl, rfl⟩

/-- C7: for a Cohere provider message with text `"looking"` and one tool call
named `"search"` with arguments `{"q": "cats"}`, `from_provider` yields one
message with role `"tool"` whose content is the text part followed by the
tool-call part. -/
theorem cohere_text_then_tool_call_parts :
    CohereMessageParamConverter.from_provider
        [⟨"looking", some [⟨"search", [("q", "cats")]⟩]⟩]
      = .list [⟨"tool", .parts [.textPart "looking",
          .toolCallPart "search" [("q", "cats")] none]⟩] := by
  decide

/-- C3: for every Anthropic image block whose base64 source carries a truthy
`data` payload and a non-empty `media_type` outside the allow-list,
`from_provider` raises the unsupported-content `ValueError` naming that media
type; the block is never dropped. -/
theorem anthropic_unsupported_media_type_raises
    (role : String) (d : AnthropicMessageParamConverter.AnthropicImageData)
    (media_type : String) (hd : d.truthy = true) (hne : media_type ≠ "")
    (hallow : AnthropicMessageParamConverter.allowedMediaTypes.contains media_type = false) :
    AnthropicMessageParamConverter.from_provider
        [⟨role, .blocks [.dict (.image (some ⟨"base64", some media_type, some d⟩))]⟩]
      = .error (.valueError
          (AnthropicMessageParamConverter.unsupportedMediaTypeMsg media_type)) := by
  have hdec : decide (media_type ≠ "") = true := decide_eq_true hne
  have hmem : media_type ∉ AnthropicMessageParamConverter.allowedMediaTypes := by
    simpa using hallow
  simp [AnthropicMessageParamConverter.from_provider,
    AnthropicMessageParamConverter.convertMessage,
    AnthropicMessageParamConverter.convertBlocks,
    AnthropicMessageParamConverter.convertBlock, hd, hdec, hallow, hmem]

/-- Witness for C3 at the spec's own example: an `image/bmp` block raises. -/
theorem anthropic_unsupported_media_type_raises_witness :
    AnthropicMessageParamConverter.from_provider
        [⟨"user", .blocks [.dict (.image (some ⟨"base64", some "image/bmp",
          some (.fileLike [7, 8])⟩))]⟩]
      = .error (.valueError
          (AnthropicMessageParamConverter.unsupportedMediaTypeMsg "image/bmp")) :=
  anthropic_unsupported_media_type_raises "user" (.fileLike [7, 8]) "image/bmp"
    (by decide) (by decide) (by decide)

/-- Counterexample for C4: an image payload arriving as a pre-decoded raw
`bytes` object hits the fallback branch, whose `image_data.read()` call raises
`AttributeError` — the conversion does not succeed on that shape. -/
theorem anthropic_raw_bytes_not_normalized :
    AnthropicMessageParamConverter.from_provider
        [⟨"assistant", .blocks [.dict (.image (some ⟨"base64", some "image/png",
          some (.rawBytes [104, 105])⟩))]⟩]
      = .error (.attributeError "\x27bytes\x27 object has no attribute \x27read\x27") := by
  decide

/-- C4 as amended: for every allow-listed media type and non-empty byte
payload, the shapes the code does handle — a base64 string, a path reference
and a file-like object — all convert successfully to an `ImagePart` carrying
the same raw decoded bytes. -/
theorem anthropic_image_shapes_normalize_to_same_bytes
    (media_type : String) (bs : List Nat)
    (hmt : AnthropicMessageParamConverter.allowedMediaTypes.contains media_type = true)
    (hne : bs ≠ []) (hlt : ∀ b ∈ bs, b < 256) :
    ∀ d ∈ [AnthropicMessageParamConverter.AnthropicImageData.str (b64encode bs),
        .pathLike bs, .fileLike bs],
      AnthropicMessageParamConverter.from_provider
          [⟨"assistant", .blocks [.dict (.image (some ⟨"base64", some media_type, some d⟩))]⟩]
        = .ok [⟨"assistant", .parts [.imagePart media_type bs none]⟩] := by
  have hmem : media_type ∈ AnthropicMessageParamConverter.allowedMediaTypes := by
    simpa using hmt
  have hmtne : media_type ≠ "" := by
    have h4 := hmem
    simp [AnthropicMessageParamConverter.allowedMediaTypes] at h4
    rcases h4 with rfl | rfl | rfl | rfl <;> decide
  have hdec : decide (media_type ≠ "") = true := decide_eq_true hmtne
  have hemp : (b64encode bs).isEmpty = false := by
    simpa [List.isEmpty_eq_false] using b64encode_ne_nil hne
  intro d hd
  simp only [List.mem_cons, List.not_mem_nil, or_false] at hd
  rcases hd with rfl | rfl | rfl <;>
    simp [AnthropicMessageParamConverter.from_provider,
      AnthropicMessageParamConverter.convertMessage,
      AnthropicMessageParamConverter.convertBlocks,
      AnthropicMessageParamConverter.convertBlock,
      AnthropicMessageParamConverter.decodeImageData,
      AnthropicMessageParamConverter.AnthropicImageData.truthy,
      hmem, hdec, hemp, b64decode_b64encode bs hlt]

/-- Witness for C4's amended theorem at a concrete payload. -/
theorem anthropic_image_shapes_normalize_witness :
    AnthropicMessageParamConverter.from_provider
        [⟨"assistant", .blocks [.dict (.image (some ⟨"base64", some "image/png",
          some (.pathLike [0, 127, 255])⟩))]⟩]
      = .ok [⟨"assistant", .parts [.imagePart "image/png" [0, 127, 255] none]⟩] :=
  anthropic_image_shapes_normalize_to_same_bytes "image/png" [0, 127, 255]
    (by decide) (by decide) (by decide) (.pathLike [0, 127, 255]) (by simp)

theorem convertBlocks_ok_of_cons {b : AnthropicMessageParamConverter.AnthropicBlock}
    {rest : List AnthropicMessageParamConverter.AnthropicBlock}
    {pr : List ContentPart × Bool}
    (h : AnthropicMessageParamConverter.convertBlocks (b :: rest) = .ok pr) :
    (∃ o, AnthropicMessageParamConverter.convertBlock b = .ok o) ∧
      ∃ pr2, AnthropicMessageParamConverter.convertBlocks rest = .ok pr2 := by
  simp only [AnthropicMessageParamConverter.convertBlocks] at h
  split at h
  next e heq => simp at h
  next heq => exact ⟨⟨none, heq⟩, ⟨pr, h⟩⟩
  next p isTool heq =>
    split at h
    next e heq2 => simp at h
    next ps flag heq2 => exact ⟨⟨some (p, isTool), heq⟩, ⟨(ps, flag), heq2⟩⟩

theorem convertBlocks_ok_recognized
    {bs : List AnthropicMessageParamConverter.AnthropicBlock}
    {pr : List ContentPart × Bool}
    (h : AnthropicMessageParamConverter.convertBlocks bs = .ok pr) :
    ∀ d, AnthropicMessageParamConverter.AnthropicBlock.dict d ∈ bs →
      d.recognizedKind = true := by
  induction bs generalizing pr with
  | nil => simp
  | cons b rest ih =>
    intro d hd
    obtain ⟨⟨o, ho⟩, ⟨pr2, hpr2⟩⟩ := convertBlocks_ok_of_cons h
    rcases List.mem_cons.mp hd with heq | hmem
    · subst heq
      cases d with
      | text t =>
          rfl
      | image src =>
          rfl
      | tool_use i n a =>
          rfl
      | other t =>
          simp [AnthropicMessageParamConverter.convertBlock] at ho
    · exact ih hpr2 d hmem

theorem anthropic_from_provider_ok_recognized
    {msgs : List AnthropicMessageParamConverter.MessageParam}
    {res : List BaseMessageParam}
    (h : AnthropicMessageParamConverter.from_provider msgs = .ok res) :
    ∀ mp ∈ msgs, ∀ bs, mp.content = .blocks bs →
      ∀ d, AnthropicMessageParamConverter.AnthropicBlock.dict d ∈ bs →
        d.recognizedKind = true := by
  induction msgs generalizing res with
  | nil => simp
  | cons m rest ih =>
    intro mp hmp bs hbs d hd
    simp only [AnthropicMessageParamConverter.from_provider] at h
    split at h
    next e heq => simp at h
    next m' heq =>
      split at h
      next e heq2 => simp at h
      next ms heq2 =>
        rcases List.mem_cons.mp hmp with hme | hmem
        · subst hme
          simp only [AnthropicMessageParamConverter.convertMessage, hbs] at heq
          split at heq
          next e heq3 => simp at heq
          next ps flag heq3 => exact convertBlocks_ok_recognized heq3 d hd
        · exact ih heq2 mp hmem bs hbs d hd

theorem convertParts_ok_recognized {ps : List OpenAICallResponse.PartDict}
    {parts : List ContentPart}
    (h : OpenAICallResponse.convertParts ps = .ok parts) :
    ∀ p ∈ ps, p.recognizedKind = true := by
  induction ps generalizing parts with
  | nil => simp
  | cons q rest ih =>
    intro p hp
    simp only [OpenAICallResponse.convertParts] at h
    split at h
    next e heq => simp at h
    next part heq =>
      split at h
      next e heq2 => simp at h
      next parts2 heq2 =>
        rcases List.mem_cons.mp hp with hpe | hmem
        · subst hpe
          cases p with
          | text t => rfl
          | image_url u dt => rfl
          | input_audio da f => rfl
          | other t => simp [OpenAICallResponse.convertPart] at heq
        · exact ih heq2 p hmem

/-- Counterexample for C2: a content block that is not a dict — here an SDK
object with declared type `"banana"`, outside the recognized set — is silently
skipped by the Anthropic converter (`if not isinstance(block, dict): continue`):
the conversion succeeds and the block leaves no trace, instead of raising. -/
theorem non_dict_block_silently_skipped :
    AnthropicMessageParamConverter.from_provider
        [⟨"assistant", .blocks [.nonDict "banana"]⟩]
      = .ok [⟨"assistant", .parts []⟩] := by
  decide

/-- C2 as amended: a dict content block whose declared kind is outside the
recognized set never survives conversion — the Anthropic converter succeeds
only if every dict block is text / image / tool_use, and the OpenAI adapter
view succeeds only if every part is text / image_url / input_audio — but a
content block that is not a dict is silently skipped by the Anthropic
converter rather than raising. -/
theorem unrecognized_kinds_never_survive :
    (∀ msgs res, AnthropicMessageParamConverter.from_provider msgs = .ok res →
        ∀ mp ∈ msgs, ∀ bs, mp.content = .blocks bs →
          ∀ d, AnthropicMessageParamConverter.AnthropicBlock.dict d ∈ bs →
            d.recognizedKind = true) ∧
      ∀ mp m, OpenAICallResponse.common_message_param mp = .ok m →
        ∀ ps, mp.content = .parts ps → ∀ p ∈ ps, p.recognizedKind = true := by
  constructor
  · intro msgs res h
    exact anthropic_from_provider_ok_recognized h
  · intro mp m h ps hps
    simp only [OpenAICallResponse.common_message_param, hps] at h
    split at h
    next e heq => simp at h
    next parts heq => exact convertParts_ok_recognized heq

/-- Witness for C2's amended theorem at a concrete recognized block. -/
theorem unrecognized_kinds_never_survive_witness :
    (AnthropicMessageParamConverter.AnthropicBlockDict.text (some "hi")).recognizedKind
      = true :=
  unrecognized_kinds_never_survive.1
    [⟨"assistant", .blocks [.dict (.text (some "hi"))]⟩]
    [⟨"assistant", .parts [.textPart "hi"]⟩] (by decide)
    ⟨"assistant", .blocks [.dict (.text (some "hi"))]⟩ (by decide)
    [.dict (.text (some "hi"))] rfl (.text (some "hi")) (by decide)

theorem convertBlock_part_flag {b : AnthropicMessageParamConverter.AnthropicBlock}
    {p : ContentPart} {isTool : Bool}
    (h : AnthropicMessageParamConverter.convertBlock b = .ok (some (p, isTool))) :
    p.isToolCall = isTool := by
  cases b with
  | nonDict t => simp [AnthropicMessageParamConverter.convertBlock] at h
  | dict d =>
    cases d with
    | text t =>
      cases t with
      | none => simp [AnthropicMessageParamConverter.convertBlock] at h
      | some s =>
        simp only [AnthropicMessageParamConverter.convertBlock, Except.ok.injEq,
          Option.some.injEq, Prod.mk.injEq] at h
        obtain ⟨h1, h2⟩ := h
        subst h1
        subst h2
        rfl
    | tool_use i n a =>
      simp only [AnthropicMessageParamConverter.convertBlock, Except.ok.injEq,
        Option.some.injEq, Prod.mk.injEq] at h
      obtain ⟨h1, h2⟩ := h
      subst h1
      subst h2
      rfl
    | other t =>
      simp [AnthropicMessageParamConverter.convertBlock] at h
    | image src =>
      cases src with
      | none => simp [AnthropicMessageParamConverter.convertBlock] at h
      | some source =>
        simp only [AnthropicMessageParamConverter.convertBlock] at h
        repeat' split at h
        all_goals try simp at h
        all_goals obtain ⟨h1, h2⟩ := h
        all_goals subst h1
        all_goals subst h2
        all_goals rfl

theorem convertBlocks_any_flag
    {bs : List AnthropicMessageParamConverter.AnthropicBlock}
    {ps : List ContentPart} {flag : Bool}
    (h : AnthropicMessageParamConverter.convertBlocks bs = .ok (ps, flag)) :
    ps.any ContentPart.isToolCall = flag := by
  induction bs generalizing ps flag with
  | nil => simp_all [AnthropicMessageParamConverter.convertBlocks]
  | cons b rest ih =>
    simp only [AnthropicMessageParamConverter.convertBlocks] at h
    split at h
    next e heq => simp at h
    next heq => exact ih h
    next p isTool heq =>
      split at h
      next e heq2 => simp at h
      next ps2 flag2 heq2 =>
        have hp := convertBlock_part_flag heq
        have hrest := ih heq2
        simp only [Except.ok.injEq, Prod.mk.injEq] at h
        obtain ⟨h1, h2⟩ := h
        subst h1
        subst h2
        simp [List.any_cons, hp, hrest]

theorem convertMessage_role {mp : AnthropicMessageParamConverter.MessageParam}
    {m : BaseMessageParam}
    (h : AnthropicMessageParamConverter.convertMessage mp = .ok m) :
    m.role = if m.content.hasToolCallPart then "tool" else "assistant" := by
  cases hc : mp.content with
  | str s =>
    simp only [AnthropicMessageParamConverter.convertMessage, hc, Except.ok.injEq] at h
    subst h
    simp [MessageContent.hasToolCallPart]
  | blocks bs =>
    simp only [AnthropicMessageParamConverter.convertMessage, hc] at h
    split at h
    next e heq => simp at h
    next ps flag heq =>
      have hflag := convertBlocks_any_flag heq
      simp only [Except.ok.injEq] at h
      subst h
      simp [MessageContent.hasToolCallPart, hflag]

theorem anthropic_from_provider_roles
    {msgs : List AnthropicMessageParamConverter.MessageParam}
    {res : List BaseMessageParam}
    (h : AnthropicMessageParamConverter.from_provider msgs = .ok res) :
    ∀ m ∈ res, m.role = if m.content.hasToolCallPart then "tool" else "assistant" := by
  induction msgs generalizing res with
  | nil =>
    simp only [AnthropicMessageParamConverter.from_provider, Except.ok.injEq] at h
    subst h
    simp
  | cons mp rest ih =>
    simp only [AnthropicMessageParamConverter.from_provider] at h
    split at h
    next e heq => simp at h
    next m' heq =>
      split at h
      next e heq2 => simp at h
      next ms heq2 =>
        simp only [Except.ok.injEq] at h
        subst h
        intro m hm
        rcases List.mem_cons.mp hm with hme | hmem
        · subst hme
          exact convertMessage_role heq
        · exact ih heq2 m hmem

theorem convertedContent_hasToolCall (mp : CohereMessageParamConverter.ChatMessage)
    (t : CohereMessageParamConverter.ToolCall)
    (ts : List CohereMessageParamConverter.ToolCall) :
    (MessageContent.parts (CohereMessageParamConverter.convertedContent mp (t :: ts))).hasToolCallPart
      = true := by
  by_cases hm : mp.message = "" <;>
    simp [CohereMessageParamConverter.convertedContent, hm,
      MessageContent.hasToolCallPart, ContentPart.isToolCall]

theorem cohere_fromProviderLoop_roles (msgs : List CohereMessageParamConverter.ChatMessage) :
    ∀ acc : List BaseMessageParam,
      (∀ m ∈ acc, m.role = if m.content.hasToolCallPart then "tool" else "assistant") →
      ((∀ m, CohereMessageParamConverter.fromProviderLoop msgs acc = .single m →
          m.role = if m.content.hasToolCallPart then "tool" else "assistant") ∧
        ∀ res, CohereMessageParamConverter.fromProviderLoop msgs acc = .list res →
          ∀ m ∈ res, m.role = if m.content.hasToolCallPart then "tool" else "assistant") := by
  induction msgs with
  | nil =>
    intro acc hacc
    constructor
    · intro m hm
      simp [CohereMessageParamConverter.fromProviderLoop] at hm
    · intro res hres
      simp only [CohereMessageParamConverter.fromProviderLoop,
        CohereMessageParamConverter.FromProviderResult.list.injEq] at hres
      subst hres
      exact hacc
  | cons mp rest ih =>
    intro acc hacc
    cases htc : mp.tool_calls with
    | none =>
      constructor
      · intro m hm
        simp only [CohereMessageParamConverter.fromProviderLoop, htc,
          CohereMessageParamConverter.FromProviderResult.single.injEq] at hm
        subst hm
        simp [MessageContent.hasToolCallPart]
      · intro res hres
        simp [CohereMessageParamConverter.fromProviderLoop, htc] at hres
    | some l =>
      cases l with
      | nil =>
        constructor
        · intro m hm
          simp only [CohereMessageParamConverter.fromProviderLoop, htc,
            CohereMessageParamConverter.FromProviderResult.single.injEq] at hm
          subst hm
          simp [MessageContent.hasToolCallPart]
        · intro res hres
          simp [CohereMessageParamConverter.fromProviderLoop, htc] at hres
      | cons t ts =>
        have hnew : ∀ m ∈ acc ++
            [⟨"tool", .parts (CohereMessageParamConverter.convertedContent mp (t :: ts))⟩],
            m.role = if m.content.hasToolCallPart then "tool" else "assistant" := by
          intro m hm
          rcases List.mem_append.mp hm with h1 | h2
          · exact hacc m h1
          · simp only [List.mem_singleton] at h2
            subst h2
            simp [convertedContent_hasToolCall]
        have hres := ih _ hnew
        simpa only [CohereMessageParamConverter.fromProviderLoop, htc] using hres

/-- C5: every common message produced by the Anthropic or Cohere converter's
`from_provider` has its role derived from the detected content: `"tool"` when
the content contains a tool-call part, `"assistant"` otherwise. -/
theorem role_derived_from_content :
    (∀ msgs res, AnthropicMessageParamConverter.from_provider msgs = .ok res →
        ∀ m ∈ res, m.role = if m.content.hasToolCallPart then "tool" else "assistant") ∧
      (∀ msgs m, CohereMessageParamConverter.from_provider msgs = .single m →
        m.role = if m.content.hasToolCallPart then "tool" else "assistant") ∧
      ∀ msgs res, CohereMessageParamConverter.from_provider msgs = .list res →
        ∀ m ∈ res, m.role = if m.content.hasToolCallPart then "tool" else "assistant" := by
  refine ⟨fun msgs res h => anthropic_from_provider_roles h, ?_, ?_⟩
  · intro msgs m h
    exact (cohere_fromProviderLoop_roles msgs [] (by simp)).1 m h
  · intro msgs res h
    exact (cohere_fromProviderLoop_roles msgs [] (by simp)).2 res h

/-- Witness for C5 at a concrete tool-use message. -/
theorem role_derived_from_content_witness :
    (⟨"tool", .parts [.toolCallPart "f" [] (some "1")]⟩ : BaseMessageParam).role
      = if (⟨"tool", .parts [.toolCallPart "f" [] (some "1")]⟩ : BaseMessageParam).content.hasToolCallPart
          then "tool" else "assistant" :=
  role_derived_from_content.1 [⟨"user", .blocks [.dict (.tool_use "1" "f" [])]⟩]
    [⟨"tool", .parts [.toolCallPart "f" [] (some "1")]⟩] (by decide)
    ⟨"tool", .parts [.toolCallPart "f" [] (some "1")]⟩ (by decide)

theorem cohere_fromProviderLoop_early
    (post : List CohereMessageParamConverter.ChatMessage)
    (mp : CohereMessageParamConverter.ChatMessage)
    (hmp : mp.tool_calls.getD [] = []) :
    ∀ (pre : List CohereMessageParamConverter.ChatMessage)
      (acc : List BaseMessageParam),
      (∀ m ∈ pre, m.tool_calls.getD [] ≠ []) →
      CohereMessageParamConverter.fromProviderLoop (pre ++ mp :: post) acc
        = .single ⟨"assistant", .str mp.message⟩ := by
  intro pre
  induction pre with
  | nil =>
    intro acc _
    cases htc : mp.tool_calls with
    | none => simp [CohereMessageParamConverter.fromProviderLoop, htc]
    | some l =>
      cases l with
      | nil => simp [CohereMessageParamConverter.fromProviderLoop, htc]
      | cons t ts =>
        rw [htc] at hmp
        simp at hmp
  | cons m pre ih =>
    intro acc hpre
    have hm := hpre m (by simp)
    cases htc : m.tool_calls with
    | none =>
      rw [htc] at hm
      simp at hm
    | some l =>
      cases l with
      | nil =>
        rw [htc] at hm
        simp at hm
      | cons t ts =>
        simp only [List.cons_append, CohereMessageParamConverter.fromProviderLoop, htc]
        exact ih _ fun x hx => hpre x (List.mem_cons_of_mem m hx)

/-- C10: for every input list in which some message has no tool calls, the
Cohere converter returns at the first such message: the result is that
message's single converted object (not a list), and both the already-converted
messages before it and every message after it are discarded. -/
theorem cohere_from_provider_early_return
    (pre post : List CohereMessageParamConverter.ChatMessage)
    (mp : CohereMessageParamConverter.ChatMessage)
    (hpre : ∀ m ∈ pre, m.tool_calls.getD [] ≠ [])
    (hmp : mp.tool_calls.getD [] = []) :
    CohereMessageParamConverter.from_provider (pre ++ mp :: post)
      = .single ⟨"assistant", .str mp.message⟩ :=
  cohere_fromProviderLoop_early post mp hmp pre [] hpre

/-- Witness for C10: a no-tool-calls message between two tool-call messages
swallows the whole conversion. -/
theorem cohere_from_provider_early_return_witness :
    CohereMessageParamConverter.from_provider
        [⟨"first", some [⟨"t", []⟩]⟩, ⟨"bye", none⟩, ⟨"later", some [⟨"u", []⟩]⟩]
      = .single ⟨"assistant", .str "bye"⟩ :=
  cohere_from_provider_early_return [⟨"first", some [⟨"t", []⟩]⟩]
    [⟨"later", some [⟨"u", []⟩]⟩] ⟨"bye", none⟩ (by decide) (by decide)

/-- C8: when the first-choice message carries a non-empty refusal, both `tools`
and `tool` raise a `ValueError` whose message is exactly the refusal text,
regardless of the tool calls present or the tool types registered. -/
theorem refusal_raises_in_tools_and_tool
    (message : OpenAICallResponse.ChatCompletionMessage)
    (rest : List OpenAICallResponse.Choice) (tool_types : List String) (r : String)
    (hr : message.refusal = some r) (hne : r ≠ "") :
    OpenAICallResponse.tools ⟨⟨message⟩ :: rest⟩ tool_types = .error (.valueError r) ∧
      OpenAICallResponse.tool ⟨⟨message⟩ :: rest⟩ tool_types = .error (.valueError r) := by
  have htr : OpenAICallResponse.truthyRefusal message = some r := by
    simp [OpenAICallResponse.truthyRefusal, hr, hne]
  constructor
  · simp [OpenAICallResponse.tools, htr]
  · simp [OpenAICallResponse.tool, OpenAICallResponse.tools, htr]

/-- Witness for C8: the refusal wins even with a tool call present and a
matching tool type registered. -/
theorem refusal_raises_witness :
    OpenAICallResponse.tools
        ⟨[⟨⟨none, some "I cannot help with that",
          some [⟨"call_1", ⟨"search", "\x7b\x7d"⟩⟩]⟩⟩]⟩ ["search"]
        = .error (.valueError "I cannot help with that") ∧
      OpenAICallResponse.tool
        ⟨[⟨⟨none, some "I cannot help with that",
          some [⟨"call_1", ⟨"search", "\x7b\x7d"⟩⟩]⟩⟩]⟩ ["search"]
        = .error (.valueError "I cannot help with that") :=
  refusal_raises_in_tools_and_tool
    ⟨none, some "I cannot help with that", some [⟨"call_1", ⟨"search", "\x7b\x7d"⟩⟩]⟩
    [] ["search"] "I cannot help with that" rfl (by decide)

/-- Counterexample for C9: on an OpenAI response whose choices list is empty
— no first choice, hence no textual content — the `content` accessor raises
`IndexError` instead of returning `""`. -/
theorem openai_content_raises_on_empty_choices :
    OpenAICallResponse.content ⟨[]⟩ = .error (.indexError "list index out of range") :=
  rfl

/-- C9 as amended: the OpenAI response `content` accessor returns the
first-choice textual content, with `""` for absent content, whenever the
response has at least one choice (but raises `IndexError` when it has none);
the AzureAI chunk `content` accessor never raises, returning `""` when choices
are empty or the delta content is absent or empty. -/
theorem content_empty_when_absent :
    (∀ (message : OpenAICallResponse.ChatCompletionMessage)
        (rest : List OpenAICallResponse.Choice),
        OpenAICallResponse.content ⟨⟨message⟩ :: rest⟩ = .ok (message.content.getD "")) ∧
      ∀ chunk : AzureAICallResponseChunk.ChatCompletionChunk,
        AzureAICallResponseChunk.content chunk
          = match chunk.choices with
            | [] => ""
            | choice :: _ => choice.delta.content.getD "" := by
  constructor
  · intro message rest
    rfl
  · intro chunk
    rcases chunk with ⟨choices⟩
    cases choices with
    | nil => rfl
    | cons c rest =>
      rcases c with ⟨⟨co⟩⟩
      cases co with
      | none => rfl
      | some s =>
        by_cases hs : s = ""
        · subst hs
          simp [AzureAICallResponseChunk.content]
        · simp [AzureAICallResponseChunk.content, hs]

/-- Counterexample for C1: a user text message — content fully expressible in
the Anthropic format — does not round-trip: `from_provider` rebuilds it with
role `"assistant"`, so the result differs from the original. -/
theorem anthropic_round_trip_forgets_role :
    anthropicRoundTrip [⟨"user", .parts [.textPart "hi"]⟩]
        = .ok [⟨"assistant", .parts [.textPart "hi"]⟩]
      ∧ (⟨"assistant", .parts [.textPart "hi"]⟩ : BaseMessageParam)
          ≠ ⟨"user", .parts [.textPart "hi"]⟩ :=
  ⟨by decide, by decide⟩

/-- C1 as amended: the Anthropic round trip `from_provider(to_provider([m]))
= [m]` holds for each part kind in isolation once the message also carries the
role `from_provider` derives — `"assistant"` for a text part or an image part
(allow-listed media type, no detail hint, non-empty byte payload), `"tool"`
for a tool-call part with a correlation identifier. -/
theorem anthropic_round_trip_identity (m : BaseMessageParam)
    (h : (∃ t, m = ⟨"assistant", .parts [.textPart t]⟩) ∨
        (∃ mt img, m = ⟨"assistant", .parts [.imagePart mt img none]⟩ ∧
          AnthropicMessageParamConverter.allowedMediaTypes.contains mt = true ∧
          img ≠ [] ∧ ∀ b ∈ img, b < 256) ∨
        ∃ n a i, m = ⟨"tool", .parts [.toolCallPart n a (some i)]⟩) :
    anthropicRoundTrip [m] = .ok [m] := by
  rcases h with ⟨t, rfl⟩ | ⟨mt, img, rfl, hmt, hne, hlt⟩ | ⟨n, a, i, rfl⟩
  · rfl
  · have hmem : mt ∈ AnthropicMessageParamConverter.allowedMediaTypes := by
      simpa using hmt
    have hmtne : mt ≠ "" := by
      have h4 := hmem
      simp [AnthropicMessageParamConverter.allowedMediaTypes] at h4
      rcases h4 with rfl | rfl | rfl | rfl <;> decide
    have hdec : decide (mt ≠ "") = true := decide_eq_true hmtne
    have hemp : (b64encode img).isEmpty = false := by
      simpa [List.isEmpty_eq_false] using b64encode_ne_nil hne
    simp [anthropicRoundTrip, AnthropicMessageParamConverter.to_provider,
      AnthropicMessageParamConverter.convert_message_params,
      AnthropicMessageParamConverter.convertOutMessage,
      AnthropicMessageParamConverter.convertOutParts,
      AnthropicMessageParamConverter.convertOutPart,
      AnthropicMessageParamConverter.from_provider,
      AnthropicMessageParamConverter.convertMessage,
      AnthropicMessageParamConverter.convertBlocks,
      AnthropicMessageParamConverter.convertBlock,
      AnthropicMessageParamConverter.decodeImageData,
      AnthropicMessageParamConverter.AnthropicImageData.truthy,
      hmt, hmem, hdec, hemp, b64decode_b64encode img hlt]
  · rfl

/-- Witness for C1's amended theorem at a concrete image message. -/
theorem anthropic_round_trip_identity_witness :
    anthropicRoundTrip [⟨"assistant", .parts [.imagePart "image/png" [0, 127, 255] none]⟩]
      = .ok [⟨"assistant", .parts [.imagePart "image/png" [0, 127, 255] none]⟩] :=
  anthropic_round_trip_identity ⟨"assistant", .parts [.imagePart "image/png" [0, 127, 255] none]⟩
    (.inr (.inl ⟨"image/png", [0, 127, 255], rfl, by decide, by decide, by decide⟩))
